import Mathlib

/-
Verification of the SoulWallet SDK UserOperation lifecycle engine
(soulwalletlib). The definitions below are a shallow embedding of the
Result-based `SoulWallet` class (the current engine generation): pure
computations become Lean functions, `await`ed chain and bundler RPC calls
become oracle record fields, the mutable `StorageCache` singleton and the
instance memo field become explicit state threaded through each call, and
JavaScript BigInt arithmetic becomes Nat arithmetic (BigInt is exact
arbitrary-precision; the gas quantities handled here are non-negative).
Hex strings produced by the code via `0x` + value.toString(16) are modelled
by `hexString`, and JavaScript string operations (toLowerCase, indexOf,
Array.join) by the ASCII-level helpers below (the strings involved are
hex addresses and hashes, which are ASCII).
-/

namespace SoulWalletLib

/-- ASCII lowercase of one character, the behaviour of JavaScript
toLowerCase on the hex/address strings handled by the SDK. -/
def lowerChar (c : Char) : Char :=
  if 65 ≤ c.toNat ∧ c.toNat ≤ 90 then Char.ofNat (c.toNat + 32) else c

/-- JavaScript s.toLowerCase() on ASCII strings. -/
def lowerStr (s : String) : String := String.mk (s.data.map lowerChar)

/-- List-level prefix test used to model substring search. -/
def listIsPref : List Char → List Char → Bool
  | [], _ => true
  | _ :: _, [] => false
  | a :: as, b :: bs => a = b && listIsPref as bs

/-- List-level substring containment. -/
def listContainsSub (pat : List Char) : List Char → Bool
  | [] => listIsPref pat []
  | b :: bs => listIsPref pat (b :: bs) || listContainsSub pat bs

/-- JavaScript haystack.indexOf(needle) !== -1. -/
def containsSub (haystack needle : String) : Bool :=
  listContainsSub needle.data haystack.data

/-- JavaScript Array.join() with the default comma separator. -/
def joinComma : List String → String
  | [] => ""
  | [s] => s
  | s :: rest => s ++ "," ++ joinComma rest

/-- Hex digit character (lowercase), as produced by BigInt.toString(16). -/
def hexDigitChar (d : Nat) : Char :=
  if d < 10 then Char.ofNat (48 + d) else Char.ofNat (87 + d)

/-- Fuel-driven hex digit expansion (most significant digit first). -/
def natToHexCore : Nat → Nat → List Char → List Char
  | 0, _, acc => acc
  | fuel + 1, n, acc =>
    let d := hexDigitChar (n % 16)
    if n < 16 then d :: acc else natToHexCore fuel (n / 16) (d :: acc)

/-- JavaScript n.toString(16) for a non-negative BigInt n. -/
def natToHex (n : Nat) : String := String.mk (natToHexCore (n + 1) n [])

/-- JavaScript quoting pattern 0x + n.toString(16) used throughout the SDK. -/
def hexString (n : Nat) : String := String.mk ('0' :: 'x' :: natToHexCore (n + 1) n [])

/-- Number.MAX_SAFE_INTEGER; Number.isSafeInteger holds for a non-negative
chain id exactly when it does not exceed this bound. -/
def maxSafeInteger : Nat := 9007199254740991

/-! ## Data model -/

/-- The resolved on-chain configuration (class onChainConfig). -/
structure OnChainConfig where
  chainId : Nat
  entryPoint : String
  soulWalletLogic : String
deriving DecidableEq

/-- The shared StorageCache entries holding onChainConfig values, plus the
per-instance memo field `_onChainConfig` of the SoulWallet class. -/
structure ConfigState where
  instConfig : Option OnChainConfig
  cache : List (String × OnChainConfig)
deriving DecidableEq

/-- StorageCache.getInstance().get for onChainConfig keys. -/
def cacheGet (key : String) : List (String × OnChainConfig) → Option OnChainConfig
  | [] => none
  | (k, v) :: rest => if k = key then some v else cacheGet key rest

/-- StorageCache.getInstance().set: the new binding shadows any older one. -/
def cacheSet (key : String) (v : OnChainConfig) (c : List (String × OnChainConfig)) :
    List (String × OnChainConfig) := (key, v) :: c

/-- The chain/bundler RPC reads getOnChainConfig can perform, recorded in
order so that theorems can speak about which reads a call issued. -/
inductive ChainRead where
  | providerGetNetwork
  | factoryWalletImpl
  | logicEntryPoint
  | bundlerGetNetwork
  | supportedEntryPoints
deriving DecidableEq

/-- Responses of the external provider/bundler collaborators consulted by
getOnChainConfig, treated as a fixed oracle for one resolution run. -/
structure ConfigOracle where
  providerChainId : Nat
  walletImpl : String
  entryPointAddr : String
  bundlerChainId : Nat
  supportedEntryPoints : Except String (List String)

/-- The StorageCache key onChainConfig_ factory _ chainId. -/
def configCacheKey (factory : String) (chainId : Nat) : String :=
  "onChainConfig_" ++ factory ++ "_" ++ Nat.repr chainId

/-- SoulWallet.getOnChainConfig: returns the result together with the updated
cache/memo state and the ordered list of chain reads performed. Mirrors the
source: instance memo short-circuit; provider chain id fetch and safe-integer
and nonzero checks; keyed cache lookup; on a miss, factory walletImpl and
logic entryPoint reads, bundler chain id checks and cross-check, cache write,
then the bundler supported-entry-points check; the memo field is set on the
Ok exits only. -/
def getOnChainConfig (factory : String) (o : ConfigOracle) (s : ConfigState) :
    Except String OnChainConfig × ConfigState × List ChainRead :=
  match s.instConfig with
  | some c => (.ok c, s, [])
  | none =>
    let chainId := o.providerChainId
    if chainId ≤ maxSafeInteger then
      if chainId = 0 then
        (.error "Invalid chainId", s, [.providerGetNetwork])
      else
        let key := configCacheKey factory chainId
        match cacheGet key s.cache with
        | some cfg =>
          (.ok cfg, { s with instConfig := some cfg }, [.providerGetNetwork])
        | none =>
          let reads := [ChainRead.providerGetNetwork, .factoryWalletImpl,
                        .logicEntryPoint, .bundlerGetNetwork]
          let soulWalletLogic := o.walletImpl
          let entryPoint := o.entryPointAddr
          let bundlerChainId := o.bundlerChainId
          if bundlerChainId ≤ maxSafeInteger then
            if bundlerChainId = 0 then
              (.error "Invalid bundler chainId", s, reads)
            else
              if chainId = bundlerChainId then
                let cfg : OnChainConfig :=
                  { chainId := chainId, entryPoint := entryPoint,
                    soulWalletLogic := soulWalletLogic }
                let s1 : ConfigState := { s with cache := cacheSet key cfg s.cache }
                let reads2 := reads ++ [.supportedEntryPoints]
                match o.supportedEntryPoints with
                | .error e => (.error e, s1, reads2)
                | .ok eps =>
                  if containsSub (lowerStr (joinComma eps)) (lowerStr entryPoint) then
                    (.ok cfg, { s1 with instConfig := some cfg }, reads2)
                  else
                    (.error ("Bundler network does not support entryPoint " ++ entryPoint),
                     s1, reads2)
              else
                (.error "chainId is not equal to bundler chainId", s, reads)
          else
            (.error "bundler chainId is not a safe integer", s, reads)
    else
      (.error "chainId is not a safe integer", s, [.providerGetNetwork])

/-- The bundler supported-entry-points check fails: either the RPC itself
errored, or the joined list does not contain the entry point
(case-insensitively). -/
def epFails (o : ConfigOracle) : Bool :=
  match o.supportedEntryPoints with
  | .error _ => true
  | .ok eps => ! containsSub (lowerStr (joinComma eps)) (lowerStr o.entryPointAddr)

/-- The config a fresh (cache-missing) resolution run assembles from the
oracle before the supported-entry-points check. -/
def resolvedConfig (o : ConfigOracle) : OnChainConfig :=
  { chainId := o.providerChainId, entryPoint := o.entryPointAddr,
    soulWalletLogic := o.walletImpl }

/-! ## Helper lemmas about getOnChainConfig -/

lemma getOnChainConfig_memo (f : String) (o : ConfigOracle) (s : ConfigState)
    (cfg : OnChainConfig) (h : s.instConfig = some cfg) :
    getOnChainConfig f o s = (.ok cfg, s, []) := by
  unfold getOnChainConfig
  rw [h]

lemma getOnChainConfig_ok_memo (f : String) (o : ConfigOracle) (s : ConfigState)
    (cfg : OnChainConfig) :
    (getOnChainConfig f o s).1 = .ok cfg →
    (getOnChainConfig f o s).2.1.instConfig = some cfg := by
  intro h
  unfold getOnChainConfig at h ⊢
  cases hsi : s.instConfig with
  | some c => simp only [hsi] at h ⊢; simp_all
  | none =>
    simp only [hsi] at h ⊢
    by_cases h1 : o.providerChainId ≤ maxSafeInteger
    · simp only [if_pos h1] at h ⊢
      by_cases h2 : o.providerChainId = 0
      · simp only [if_pos h2] at h; simp_all
      · simp only [if_neg h2] at h ⊢
        cases hc : cacheGet (configCacheKey f o.providerChainId) s.cache with
        | some c => simp only [hc] at h ⊢; simp_all
        | none =>
          simp only [hc] at h ⊢
          by_cases h3 : o.bundlerChainId ≤ maxSafeInteger
          · simp only [if_pos h3] at h ⊢
            by_cases h4 : o.bundlerChainId = 0
            · simp only [if_pos h4] at h; simp_all
            · simp only [if_neg h4] at h ⊢
              by_cases h5 : o.providerChainId = o.bundlerChainId
              · simp only [if_pos h5] at h ⊢
                cases hsup : o.supportedEntryPoints with
                | error e => simp only [hsup] at h ⊢; simp_all
                | ok eps =>
                  simp only [hsup] at h ⊢
                  by_cases h6 : containsSub (lowerStr (joinComma eps))
                      (lowerStr o.entryPointAddr) = true
                  · simp only [if_pos h6] at h ⊢; simp_all
                  · simp only [if_neg h6] at h ⊢; simp_all
              · simp only [if_neg h5] at h; simp_all
          · simp only [if_neg h3] at h; simp_all
    · simp only [if_neg h1] at h; simp_all

lemma cacheGet_cacheSet_same (k : String) (v : OnChainConfig)
    (c : List (String × OnChainConfig)) : cacheGet k (cacheSet k v c) = some v := by
  simp [cacheGet, cacheSet]

lemma getOnChainConfig_cache_hit (f : String) (o : ConfigOracle)
    (cache : List (String × OnChainConfig)) (cfg : OnChainConfig)
    (hsafe : o.providerChainId ≤ maxSafeInteger) (hnz : ¬ o.providerChainId = 0)
    (hhit : cacheGet (configCacheKey f o.providerChainId) cache = some cfg) :
    getOnChainConfig f o ⟨none, cache⟩ =
      (.ok cfg, ⟨some cfg, cache⟩, [.providerGetNetwork]) := by
  unfold getOnChainConfig
  simp only [if_pos hsafe, if_neg hnz, hhit]

/-! ## Claim theorems C1 and C2 -/

/-- C1 counterexample. The claim says a failed bundler supported-entry-points
check leaves no cache entry for the (factory, chain) key and the next call
re-resolves from scratch. At this concrete input the check fails (the bundler
supports no entry points), yet the resolved config is in the keyed cache, and
the next call returns it successfully with only the provider getNetwork read
(no factory, logic-contract or bundler reads). -/
theorem getOnChainConfig_failed_check_still_cached_cex :
    (getOnChainConfig "0xF" ⟨1, "0xL", "0xE", 1, .ok []⟩ ⟨none, []⟩).1.isOk = false
    ∧ cacheGet (configCacheKey "0xF" 1)
        (getOnChainConfig "0xF" ⟨1, "0xL", "0xE", 1, .ok []⟩ ⟨none, []⟩).2.1.cache =
        some ⟨1, "0xE", "0xL"⟩
    ∧ (getOnChainConfig "0xF" ⟨1, "0xL", "0xE", 1, .ok []⟩
        (getOnChainConfig "0xF" ⟨1, "0xL", "0xE", 1, .ok []⟩ ⟨none, []⟩).2.1).1 =
        .ok ⟨1, "0xE", "0xL"⟩
    ∧ (getOnChainConfig "0xF" ⟨1, "0xL", "0xE", 1, .ok []⟩
        (getOnChainConfig "0xF" ⟨1, "0xL", "0xE", 1, .ok []⟩ ⟨none, []⟩).2.1).2.2 =
        [ChainRead.providerGetNetwork] :=
  ⟨rfl, rfl, rfl, rfl⟩

/-- C1 amended. On a fresh resolution run (no memo, no cached entry, provider
chain id valid): a failure of any chain-id check (bundler chain id unsafe or
zero, or provider/bundler mismatch) leaves the state unchanged, so those
failures are never cached; but the config is written to the keyed cache
before the bundler supported-entry-points check, so when that check fails
(entry point absent or RPC error) the call returns an error while the cache
entry for the (factory, chain) key exists, and the next call returns the
cached config successfully with only the provider getNetwork read. -/
theorem getOnChainConfig_cache_write_precedes_entryPoint_check
    (f : String) (o : ConfigOracle) (s : ConfigState)
    (hinst : s.instConfig = none)
    (hsafe : o.providerChainId ≤ maxSafeInteger)
    (hnz : ¬ o.providerChainId = 0)
    (hmiss : cacheGet (configCacheKey f o.providerChainId) s.cache = none) :
    ((¬ o.bundlerChainId ≤ maxSafeInteger ∨ o.bundlerChainId = 0 ∨
        ¬ o.providerChainId = o.bundlerChainId) →
      (getOnChainConfig f o s).2.1 = s)
    ∧
    (o.bundlerChainId ≤ maxSafeInteger → ¬ o.bundlerChainId = 0 →
      o.providerChainId = o.bundlerChainId → epFails o = true →
      ((getOnChainConfig f o s).1.isOk = false ∧
       (getOnChainConfig f o s).2.1 =
         ⟨none, cacheSet (configCacheKey f o.providerChainId) (resolvedConfig o) s.cache⟩ ∧
       getOnChainConfig f o
           ⟨none, cacheSet (configCacheKey f o.providerChainId) (resolvedConfig o) s.cache⟩ =
         (.ok (resolvedConfig o),
          ⟨some (resolvedConfig o),
           cacheSet (configCacheKey f o.providerChainId) (resolvedConfig o) s.cache⟩,
          [.providerGetNetwork]))) := by
  constructor
  · intro hbad
    unfold getOnChainConfig
    simp only [hinst, if_pos hsafe, if_neg hnz, hmiss]
    by_cases hb1 : o.bundlerChainId ≤ maxSafeInteger
    · simp only [if_pos hb1]
      by_cases hb2 : o.bundlerChainId = 0
      · simp only [if_pos hb2]
      · simp only [if_neg hb2]
        by_cases hb3 : o.providerChainId = o.bundlerChainId
        · rcases hbad with hx | hx | hx
          · exact absurd hb1 hx
          · exact absurd hx hb2
          · exact absurd hb3 hx
        · simp only [if_neg hb3]
    · simp only [if_neg hb1]
  · intro hb1 hb2 hb3 hep
    unfold epFails at hep
    cases hsup : o.supportedEntryPoints with
    | error e =>
      have hrun : getOnChainConfig f o s =
          (.error e,
           ⟨none, cacheSet (configCacheKey f o.providerChainId) (resolvedConfig o) s.cache⟩,
           [.providerGetNetwork, .factoryWalletImpl, .logicEntryPoint,
            .bundlerGetNetwork, .supportedEntryPoints]) := by
        unfold getOnChainConfig
        simp only [hinst, if_pos hsafe, if_neg hnz, hmiss, if_pos hb1, if_neg hb2,
          if_pos hb3, hsup]
        rfl
      refine ⟨by rw [hrun]; rfl, by rw [hrun], ?_⟩
      exact getOnChainConfig_cache_hit f o _ (resolvedConfig o) hsafe hnz
        (cacheGet_cacheSet_same _ _ _)
    | ok eps =>
      rw [hsup] at hep
      simp only [Bool.not_eq_true'] at hep
      have hrun : getOnChainConfig f o s =
          (.error ("Bundler network does not support entryPoint " ++ o.entryPointAddr),
           ⟨none, cacheSet (configCacheKey f o.providerChainId) (resolvedConfig o) s.cache⟩,
           [.providerGetNetwork, .factoryWalletImpl, .logicEntryPoint,
            .bundlerGetNetwork, .supportedEntryPoints]) := by
        unfold getOnChainConfig
        simp only [hinst, if_pos hsafe, if_neg hnz, hmiss, if_pos hb1, if_neg hb2,
          if_pos hb3, hsup, hep]
        rfl
      refine ⟨by rw [hrun]; rfl, by rw [hrun], ?_⟩
      exact getOnChainConfig_cache_hit f o _ (resolvedConfig o) hsafe hnz
        (cacheGet_cacheSet_same _ _ _)

/-- C1 amended, witness at a concrete input: entry-points check fails, the
error is returned, the state holds the cached config, and the follow-up call
returns it with only the provider getNetwork read. -/
theorem getOnChainConfig_cache_write_precedes_entryPoint_check_witness :
    (getOnChainConfig "0xF" ⟨1, "0xL", "0xE", 1, .ok []⟩ ⟨none, []⟩).1.isOk = false
    ∧ (getOnChainConfig "0xF" ⟨1, "0xL", "0xE", 1, .ok []⟩ ⟨none, []⟩).2.1 =
        ⟨none, cacheSet (configCacheKey "0xF" 1)
          (resolvedConfig ⟨1, "0xL", "0xE", 1, .ok []⟩) []⟩
    ∧ getOnChainConfig "0xF" ⟨1, "0xL", "0xE", 1, .ok []⟩
          ⟨none, cacheSet (configCacheKey "0xF" 1)
            (resolvedConfig ⟨1, "0xL", "0xE", 1, .ok []⟩) []⟩ =
        (.ok (resolvedConfig ⟨1, "0xL", "0xE", 1, .ok []⟩),
         ⟨some (resolvedConfig ⟨1, "0xL", "0xE", 1, .ok []⟩),
          cacheSet (configCacheKey "0xF" 1)
            (resolvedConfig ⟨1, "0xL", "0xE", 1, .ok []⟩) []⟩,
         [.providerGetNetwork]) :=
  (getOnChainConfig_cache_write_precedes_entryPoint_check "0xF"
      ⟨1, "0xL", "0xE", 1, .ok []⟩ ⟨none, []⟩ rfl (by decide) (by decide) rfl).2
    (by decide) (by decide) rfl (by decide)

/-- C2. The config cache key is built from both the factory address and the
chain id (keys for distinct chain ids or distinct factories differ), and
resolution is idempotent per instance: once a getOnChainConfig call has
returned Ok, a second call on the resulting state returns the same config
unchanged with an empty chain-read list (no re-validation). -/
theorem getOnChainConfig_idempotent_no_reads
    (f : String) (o : ConfigOracle) (s : ConfigState) (cfg : OnChainConfig)
    (h : (getOnChainConfig f o s).1 = .ok cfg) :
    getOnChainConfig f o (getOnChainConfig f o s).2.1 =
      (.ok cfg, (getOnChainConfig f o s).2.1, [])
    ∧ configCacheKey "0xA" 1 ≠ configCacheKey "0xA" 2
    ∧ configCacheKey "0xA" 1 ≠ configCacheKey "0xB" 1 :=
  ⟨getOnChainConfig_memo f o _ cfg (getOnChainConfig_ok_memo f o s cfg h),
   by decide, by decide⟩

/-- C2 witness: a concrete successful resolution, after which the second call
returns the cached config with an empty read list. -/
theorem getOnChainConfig_idempotent_no_reads_witness :
    getOnChainConfig "0xF" ⟨1, "0xL", "0xE", 1, .ok ["0xe"]⟩
        (getOnChainConfig "0xF" ⟨1, "0xL", "0xE", 1, .ok ["0xe"]⟩ ⟨none, []⟩).2.1 =
      (.ok ⟨1, "0xE", "0xL"⟩,
       (getOnChainConfig "0xF" ⟨1, "0xL", "0xE", 1, .ok ["0xe"]⟩ ⟨none, []⟩).2.1, [])
    ∧ configCacheKey "0xA" 1 ≠ configCacheKey "0xA" 2
    ∧ configCacheKey "0xA" 1 ≠ configCacheKey "0xB" 1 :=
  getOnChainConfig_idempotent_no_reads "0xF" ⟨1, "0xL", "0xE", 1, .ok ["0xe"]⟩
    ⟨none, []⟩ ⟨1, "0xE", "0xL"⟩ rfl

/-! ## UserOperation and preFund -/

/-- A UserOperation as handled by preFund / estimateUserOperationGas /
sendUserOperation. The BigNumberish gas fields are modelled by their numeric
values (the source converts them with BigInt before use); the byte-string
fields keep their JavaScript hex-string form. -/
structure UserOperation where
  sender : String
  nonce : Nat
  initCode : String
  callData : String
  callGasLimit : Nat
  verificationGasLimit : Nat
  preVerificationGas : Nat
  maxFeePerGas : Nat
  maxPriorityFeePerGas : Nat
  paymasterAndData : String
  signature : String
deriving DecidableEq

/-- The hex-string triple returned by preFund. -/
structure PreFundData where
  deposit : String
  prefund : String
  missfund : String
deriving DecidableEq

/-- External responses consumed by preFund: the getOnChainConfig result and
the entry point balanceOf(sender) deposit read. -/
structure PreFundOracle where
  config : Except String OnChainConfig
  deposit : Nat

/-- SoulWallet.preFund. The zero checks on maxFeePerGas, preVerificationGas
and verificationGasLimit come first; then the prefund formula with
multiplier 3 exactly when paymasterAndData is not the empty byte string 0x;
then the config fetch (its failure is rethrown as a non-Error value and so
surfaces as the catch-all unknown error) and the deposit read; missfund is
requiredPrefund - deposit clamped at zero. All results are hex strings. -/
def preFund (o : PreFundOracle) (userOp : UserOperation) : Except String PreFundData :=
  if userOp.maxFeePerGas = 0 ∨ userOp.preVerificationGas = 0 ∨
      userOp.verificationGasLimit = 0 then
    .error "maxFeePerGas, preVerificationGas, verificationGasLimit must > 0"
  else
    let mul : Nat := if userOp.paymasterAndData ≠ "0x" then 3 else 1
    let requiredGas := userOp.callGasLimit + userOp.verificationGasLimit * mul +
      userOp.preVerificationGas
    let requiredPrefund := requiredGas * userOp.maxFeePerGas
    match o.config with
    | .error _ => .error "unknown error"
    | .ok _ =>
      let deposit := o.deposit
      let missfund := if deposit < requiredPrefund then requiredPrefund - deposit else 0
      .ok { deposit := hexString deposit, prefund := hexString requiredPrefund,
            missfund := hexString missfund }

/-- C6. Under the nonzero precondition and a resolved config, preFund returns
prefund = (callGasLimit + verificationGasLimit * mul + preVerificationGas) *
maxFeePerGas with mul = 3 exactly when paymasterAndData is non-empty, and
missfund = requiredPrefund - deposit truncated at zero (Nat subtraction is
max(0, prefund - deposit)), all as exact hex strings. -/
theorem preFund_formula (o : PreFundOracle) (op : UserOperation) (cfg : OnChainConfig)
    (hcfg : o.config = .ok cfg)
    (hm : ¬ op.maxFeePerGas = 0) (hp : ¬ op.preVerificationGas = 0)
    (hv : ¬ op.verificationGasLimit = 0) :
    preFund o op = .ok
      { deposit := hexString o.deposit,
        prefund := hexString ((op.callGasLimit +
          op.verificationGasLimit * (if op.paymasterAndData ≠ "0x" then 3 else 1) +
          op.preVerificationGas) * op.maxFeePerGas),
        missfund := hexString (((op.callGasLimit +
          op.verificationGasLimit * (if op.paymasterAndData ≠ "0x" then 3 else 1) +
          op.preVerificationGas) * op.maxFeePerGas) - o.deposit) } := by
  unfold preFund
  rw [if_neg (by push_neg; exact ⟨hm, hp, hv⟩), hcfg]
  have hmiss : ∀ d p : Nat, (if d < p then p - d else 0) = p - d := by
    intro d p; split <;> omega
  simp only [hmiss]

/-- C6 witness: the spec examples. With paymasterAndData empty, callGasLimit
10, verificationGasLimit 5, preVerificationGas 2, maxFeePerGas 3 and deposit
0 the prefund is 0x33; with non-empty paymasterAndData it is 0x51. -/
theorem preFund_formula_witness :
    preFund ⟨.ok ⟨1, "0xE", "0xL"⟩, 0⟩
        ⟨"0xS", 0, "0x", "0x", 10, 5, 2, 3, 0, "0x", "0x"⟩ =
      .ok ⟨"0x0", "0x33", "0x33"⟩
    ∧ preFund ⟨.ok ⟨1, "0xE", "0xL"⟩, 0⟩
        ⟨"0xS", 0, "0x", "0x", 10, 5, 2, 3, 0, "0xab", "0x"⟩ =
      .ok ⟨"0x0", "0x51", "0x51"⟩ := by
  constructor
  · rw [preFund_formula ⟨.ok ⟨1, "0xE", "0xL"⟩, 0⟩
      ⟨"0xS", 0, "0x", "0x", 10, 5, 2, 3, 0, "0x", "0x"⟩ ⟨1, "0xE", "0xL"⟩
      rfl (by decide) (by decide) (by decide)]
    rfl
  · rw [preFund_formula ⟨.ok ⟨1, "0xE", "0xL"⟩, 0⟩
      ⟨"0xS", 0, "0x", "0x", 10, 5, 2, 3, 0, "0xab", "0x"⟩ ⟨1, "0xE", "0xL"⟩
      rfl (by decide) (by decide) (by decide)]
    rfl

/-- C7. preFund fails with the validation error whenever any of maxFeePerGas,
preVerificationGas, verificationGasLimit is zero, and callGasLimit = 0 alone
never triggers the failure: with the three fields nonzero and a resolved
config the call succeeds for every callGasLimit, zero included. -/
theorem preFund_zero_validation (o : PreFundOracle) (op : UserOperation) :
    ((op.maxFeePerGas = 0 ∨ op.preVerificationGas = 0 ∨
        op.verificationGasLimit = 0) →
      preFund o op =
        .error "maxFeePerGas, preVerificationGas, verificationGasLimit must > 0")
    ∧ (¬ op.maxFeePerGas = 0 → ¬ op.preVerificationGas = 0 →
       ¬ op.verificationGasLimit = 0 → ∀ cfg, o.config = .ok cfg →
       (preFund o op).isOk = true) := by
  constructor
  · intro h
    unfold preFund
    rw [if_pos h]
  · intro hm hp hv cfg hcfg
    unfold preFund
    rw [if_neg (by push_neg; exact ⟨hm, hp, hv⟩), hcfg]
    rfl

/-- C7 witness: the spec example with maxFeePerGas 0 fails with the
validation error even though callGasLimit is 0, and the same operation with
maxFeePerGas 1 succeeds (so callGasLimit 0 alone is no failure). -/
theorem preFund_zero_validation_witness :
    preFund ⟨.ok ⟨1, "0xE", "0xL"⟩, 0⟩
        ⟨"0xS", 0, "0x", "0x", 0, 1, 1, 0, 0, "0x", "0x"⟩ =
      .error "maxFeePerGas, preVerificationGas, verificationGasLimit must > 0"
    ∧ (preFund ⟨.ok ⟨1, "0xE", "0xL"⟩, 0⟩
        ⟨"0xS", 0, "0x", "0x", 0, 1, 1, 1, 0, "0x", "0x"⟩).isOk = true := by
  constructor
  · exact (preFund_zero_validation ⟨.ok ⟨1, "0xE", "0xL"⟩, 0⟩
      ⟨"0xS", 0, "0x", "0x", 0, 1, 1, 0, 0, "0x", "0x"⟩).1 (by decide)
  · exact (preFund_zero_validation ⟨.ok ⟨1, "0xE", "0xL"⟩, 0⟩
      ⟨"0xS", 0, "0x", "0x", 0, 1, 1, 1, 0, "0x", "0x"⟩).2
      (by decide) (by decide) (by decide) ⟨1, "0xE", "0xL"⟩ rfl

/-! ## Gas estimation (estimateUserOperationGas) -/

/-- Outcome of a fallible asynchronous method: a returned Ok value, a
returned Err value, or an escalated (thrown) fault. -/
inductive Outcome (ε α : Type) where
  | ok (a : α)
  | err (e : ε)
  | thrown (msg : String)
deriving DecidableEq

/-- The guard-hook input data passed to semi-valid estimation. -/
structure GuardHookInputData where
  sender : String
  inputData : String
deriving DecidableEq

/-- The gas triple returned by the bundler estimate endpoint, as numeric
values. -/
structure GasEstimate where
  preVerificationGas : Nat
  verificationGasLimit : Nat
  callGasLimit : Nat
deriving DecidableEq

/-- External responses consumed by one estimateUserOperationGas run: the
getOnChainConfig result, the packUserOpSignature outcome for the semi-valid
placeholder (it can return Err from the guard-hook lookup or throw on an
invalid guard sender), the bundler estimate, and the protocol overhead
constant applied by GasOverhead.calcGasOverhead. -/
structure EstimateOracle where
  config : Except String OnChainConfig
  packSig : Outcome String String
  bundlerEstimate : Except String GasEstimate
  overhead : Nat

/-- Modelled from the spec: GasOverhead.calcGasOverhead (tools/gasOverhead,
not among the sources) applies a fixed protocol-overhead top-up to
preVerificationGas; the constant is the oracle's overhead field. -/
def calcGasOverhead (overhead : Nat) (op : UserOperation) : UserOperation :=
  { op with preVerificationGas := op.preVerificationGas + overhead }

/-- The try-block body after the optional placeholder installation: bundler
estimate; on success overwrite preVerificationGas and verificationGasLimit,
overwrite callGasLimit only when its current value is even, forcing the
bundler value to even first (odd number to even number), then apply the gas
overhead. -/
def estimateBody (o : EstimateOracle) (op : UserOperation) :
    Outcome String Bool × UserOperation :=
  match o.bundlerEstimate with
  | .error e => (.err e, op)
  | .ok est =>
    let op1 := { op with preVerificationGas := est.preVerificationGas,
                         verificationGasLimit := est.verificationGasLimit }
    let op2 :=
      if op1.callGasLimit % 2 = 0 then
        let newCallGasLimit :=
          if est.callGasLimit % 2 = 1 then est.callGasLimit + 1 else est.callGasLimit
        { op1 with callGasLimit := newCallGasLimit }
      else op1
    (.ok true, calcGasOverhead o.overhead op2)

/-- The finally clause: when the signature was the empty 0x on entry, restore
it to 0x on the way out, whatever the outcome. -/
def finallyRestore (semiValidSignature : Bool) (r : Outcome String Bool × UserOperation) :
    Outcome String Bool × UserOperation :=
  (r.1, if semiValidSignature then { r.2 with signature := "0x" } else r.2)

/-- SoulWallet.estimateUserOperationGas: guard-hook sender and initCode
validation; semi-valid detection (signature equals 0x) before the config
fetch; inside try, placeholder signature installation via
packUserOpSignature when semi-valid; the bundler estimate and gas-field
overwrites; and the finally clause that every try exit (Ok, Err or thrown)
passes through. Returns the outcome and the final state of the operation. -/
def estimateUserOperationGas (o : EstimateOracle)
    (semiValidGuardHookInputData : Option GuardHookInputData)
    (userOp : UserOperation) : Outcome String Bool × UserOperation :=
  let guardFail : Option String :=
    match semiValidGuardHookInputData with
    | some g =>
      if lowerStr g.sender ≠ lowerStr userOp.sender then
        some ("invalid sender: " ++ g.sender)
      else if userOp.initCode = "0x" then
        some "cannot set semiValidGuardHookInputData when the contract wallet is not deployed"
      else none
    | none => none
  match guardFail with
  | some e => (.err e, userOp)
  | none =>
    let semiValidSignature := userOp.signature = "0x"
    match o.config with
    | .error e => (.err e, userOp)
    | .ok _ =>
      if semiValidSignature then
        match o.packSig with
        | .thrown m => finallyRestore true (.thrown m, userOp)
        | .err e => finallyRestore true (.err e, userOp)
        | .ok sig => finallyRestore true (estimateBody o { userOp with signature := sig })
      else
        finallyRestore false (estimateBody o userOp)

lemma estimateGas_fields (o : EstimateOracle) (op1 : UserOperation)
    (est : GasEstimate) (b : Bool) (hest : o.bundlerEstimate = .ok est) :
    (finallyRestore b (estimateBody o op1)).2.preVerificationGas =
        est.preVerificationGas + o.overhead
    ∧ (finallyRestore b (estimateBody o op1)).2.verificationGasLimit =
        est.verificationGasLimit
    ∧ (finallyRestore b (estimateBody o op1)).2.callGasLimit =
        (if op1.callGasLimit % 2 = 0 then
          (if est.callGasLimit % 2 = 1 then est.callGasLimit + 1 else est.callGasLimit)
        else op1.callGasLimit)
    ∧ (finallyRestore b (estimateBody o op1)).1 = .ok true := by
  unfold finallyRestore estimateBody calcGasOverhead
  rw [hest]
  by_cases hp : op1.callGasLimit % 2 = 0 <;> cases b <;> simp [hp]

/-- C4. Whenever estimateUserOperationGas returns Ok after a successful
bundler estimate, the final operation carries the bundler preVerificationGas
(overwritten, then topped up by the fixed overhead) and the bundler
verificationGasLimit unconditionally; callGasLimit is overwritten exactly
when the incoming value was even, with the bundler value forced even
(incremented when odd), and an odd incoming callGasLimit is left untouched. -/
theorem estimateUserOperationGas_overwrite_policy (o : EstimateOracle)
    (g : Option GuardHookInputData) (op op' : UserOperation) (est : GasEstimate)
    (hest : o.bundlerEstimate = .ok est)
    (h : estimateUserOperationGas o g op = (.ok true, op')) :
    op'.preVerificationGas = est.preVerificationGas + o.overhead
    ∧ op'.verificationGasLimit = est.verificationGasLimit
    ∧ (op.callGasLimit % 2 = 0 →
        op'.callGasLimit =
          (if est.callGasLimit % 2 = 1 then est.callGasLimit + 1 else est.callGasLimit)
        ∧ op'.callGasLimit % 2 = 0)
    ∧ (op.callGasLimit % 2 = 1 → op'.callGasLimit = op.callGasLimit) := by
  have main : ∀ (b : Bool) (op1 : UserOperation), op1.callGasLimit = op.callGasLimit →
      (finallyRestore b (estimateBody o op1)).2 = op' →
      op'.preVerificationGas = est.preVerificationGas + o.overhead
      ∧ op'.verificationGasLimit = est.verificationGasLimit
      ∧ (op.callGasLimit % 2 = 0 →
          op'.callGasLimit =
            (if est.callGasLimit % 2 = 1 then est.callGasLimit + 1 else est.callGasLimit)
          ∧ op'.callGasLimit % 2 = 0)
      ∧ (op.callGasLimit % 2 = 1 → op'.callGasLimit = op.callGasLimit) := by
    intro b op1 hcgl h2
    obtain ⟨f1, f2, f3, _⟩ := estimateGas_fields o op1 est b hest
    rw [h2] at f1 f2 f3
    rw [hcgl] at f3
    refine ⟨f1, f2, ?_, ?_⟩
    · intro heven
      rw [if_pos heven] at f3
      refine ⟨f3, ?_⟩
      rw [f3]
      split <;> omega
    · intro hodd
      rw [if_neg (by omega)] at f3
      exact f3
  unfold estimateUserOperationGas at h
  rcases g with _ | gg
  · cases hcfg : o.config with
    | error e => simp only [hcfg] at h; simp [finallyRestore] at h
    | ok cfg =>
      simp only [hcfg] at h
      by_cases hsemi : op.signature = "0x"
      · rw [if_pos hsemi] at h
        cases hps : o.packSig with
        | thrown m => simp only [hps] at h; simp [finallyRestore] at h
        | err e => simp only [hps] at h; simp [finallyRestore] at h
        | ok sig =>
          simp only [hps] at h
          exact main true { op with signature := sig } rfl (congrArg Prod.snd h)
      · rw [if_neg hsemi] at h
        exact main false op rfl (congrArg Prod.snd h)
  · by_cases hs1 : lowerStr gg.sender ≠ lowerStr op.sender
    · simp only [if_pos hs1] at h; simp at h
    · simp only [if_neg hs1] at h
      by_cases hs2 : op.initCode = "0x"
      · simp only [if_pos hs2] at h; simp at h
      · simp only [if_neg hs2] at h
        cases hcfg : o.config with
        | error e => simp only [hcfg] at h; simp [finallyRestore] at h
        | ok cfg =>
          simp only [hcfg] at h
          by_cases hsemi : op.signature = "0x"
          · rw [if_pos hsemi] at h
            cases hps : o.packSig with
            | thrown m => simp only [hps] at h; simp [finallyRestore] at h
            | err e => simp only [hps] at h; simp [finallyRestore] at h
            | ok sig =>
              simp only [hps] at h
              exact main true { op with signature := sig } rfl (congrArg Prod.snd h)
          · rw [if_neg hsemi] at h
            exact main false op rfl (congrArg Prod.snd h)

/-- Concrete estimation oracle for the C4 witness: bundler estimate succeeds
with an odd callGasLimit of 7, overhead constant 5. -/
def c4Oracle : EstimateOracle :=
  ⟨.ok ⟨1, "0xE", "0xL"⟩, .ok "0xsig", .ok ⟨100, 200, 7⟩, 5⟩

/-- Concrete incoming operation for the C4 witness: even (auto) callGasLimit. -/
def c4OpIn : UserOperation := ⟨"0xS", 0, "0xI", "0x", 0, 1, 2, 3, 4, "0x", "0x"⟩

/-- The operation c4Oracle and c4OpIn produce: bundler gas values installed,
callGasLimit forced even to 8, overhead added to preVerificationGas. -/
def c4OpOut : UserOperation := ⟨"0xS", 0, "0xI", "0x", 8, 200, 105, 3, 4, "0x", "0x"⟩

/-- C4 witness: at the concrete estimate run the final operation carries the
bundler values, with the odd bundler callGasLimit 7 forced even to 8. -/
theorem estimateUserOperationGas_overwrite_policy_witness :
    c4OpOut.preVerificationGas = 100 + 5
    ∧ c4OpOut.verificationGasLimit = 200
    ∧ (c4OpIn.callGasLimit % 2 = 0 →
        c4OpOut.callGasLimit = (if (7 : Nat) % 2 = 1 then 7 + 1 else 7)
        ∧ c4OpOut.callGasLimit % 2 = 0)
    ∧ (c4OpIn.callGasLimit % 2 = 1 → c4OpOut.callGasLimit = c4OpIn.callGasLimit) :=
  estimateUserOperationGas_overwrite_policy c4Oracle none c4OpIn c4OpOut
    ⟨100, 200, 7⟩ rfl rfl

/-- C5. If the operation enters estimateUserOperationGas with the empty
signature 0x, it leaves with the empty signature on every exit path: guard
validation errors, config errors, placeholder-packing errors or faults,
bundler estimate errors, and success, thanks to the finally clause. -/
theorem estimateUserOperationGas_restores_empty_signature (o : EstimateOracle)
    (g : Option GuardHookInputData) (op : UserOperation)
    (h : op.signature = "0x") :
    (estimateUserOperationGas o g op).2.signature = "0x" := by
  unfold estimateUserOperationGas
  rcases g with _ | gg
  · cases hcfg : o.config with
    | error e => simp only [hcfg]; exact h
    | ok cfg =>
      simp only [hcfg]
      rw [if_pos h]
      cases hps : o.packSig <;> simp [hps, finallyRestore]
  · by_cases hs1 : lowerStr gg.sender ≠ lowerStr op.sender
    · simp only [if_pos hs1]; exact h
    · simp only [if_neg hs1]
      by_cases hs2 : op.initCode = "0x"
      · simp only [if_pos hs2]; exact h
      · simp only [if_neg hs2]
        cases hcfg : o.config with
        | error e => simp only [hcfg]; exact h
        | ok cfg =>
          simp only [hcfg]
          rw [if_pos h]
          cases hps : o.packSig <;> simp [hps, finallyRestore]

/-- C5 witness: even when the bundler estimate fails, an operation that came
in with signature 0x leaves with signature 0x after the placeholder dance. -/
theorem estimateUserOperationGas_restores_empty_signature_witness :
    (estimateUserOperationGas ⟨.ok ⟨1, "0xE", "0xL"⟩, .ok "0xsig", .error "rpc down", 5⟩
      none ⟨"0xS", 0, "0xI", "0x", 0, 1, 2, 3, 4, "0x", "0x"⟩).2.signature = "0x" :=
  estimateUserOperationGas_restores_empty_signature
    ⟨.ok ⟨1, "0xE", "0xL"⟩, .ok "0xsig", .error "rpc down", 5⟩
    none ⟨"0xS", 0, "0xI", "0x", 0, 1, 2, 3, 4, "0x", "0x"⟩ rfl

/-! ## Submission (sendUserOperation) -/

/-- External responses consumed by one sendUserOperation run: the
getOnChainConfig result and the bundler eth_sendUserOperation result (the
hash the bundler reports). -/
structure SendOracle where
  config : Except String OnChainConfig
  bundlerSend : Except String String

/-- SoulWallet.sendUserOperation, parametric in the pure local hash function
getUserOpHash(userOp, entryPoint, chainId): config fetch, bundler submit,
local hash recomputation, then the case-insensitive comparison whose failure
is thrown (escalated), not returned. -/
def sendUserOperation (hashFn : UserOperation → String → Nat → String)
    (o : SendOracle) (userOp : UserOperation) : Outcome String Bool :=
  match o.config with
  | .error e => .err e
  | .ok cfg =>
    match o.bundlerSend with
    | .error e => .err e
    | .ok bundlerHash =>
      let userOpHashLocal := hashFn userOp cfg.entryPoint cfg.chainId
      if lowerStr bundlerHash ≠ lowerStr userOpHashLocal then
        .thrown "userOpHash is not equal to userOpHashLocal"
      else
        .ok true

/-- C3. After the bundler accepts the submission, the hash it returned is
compared case-insensitively against the locally recomputed hash: any
difference escalates as a thrown consistency fault, and an Ok return is only
possible when the two hashes agree case-insensitively. -/
theorem sendUserOperation_hash_mismatch_escalates
    (hashFn : UserOperation → String → Nat → String) (o : SendOracle)
    (userOp : UserOperation) (cfg : OnChainConfig) (bundlerHash : String)
    (hcfg : o.config = .ok cfg) (hsend : o.bundlerSend = .ok bundlerHash) :
    (lowerStr bundlerHash ≠ lowerStr (hashFn userOp cfg.entryPoint cfg.chainId) →
      sendUserOperation hashFn o userOp =
        .thrown "userOpHash is not equal to userOpHashLocal")
    ∧ (sendUserOperation hashFn o userOp = .ok true →
      lowerStr bundlerHash = lowerStr (hashFn userOp cfg.entryPoint cfg.chainId)) := by
  have hred : sendUserOperation hashFn o userOp =
      if lowerStr bundlerHash ≠ lowerStr (hashFn userOp cfg.entryPoint cfg.chainId) then
        .thrown "userOpHash is not equal to userOpHashLocal"
      else .ok true := by
    unfold sendUserOperation
    rw [hcfg, hsend]
  constructor
  · intro hne
    rw [hred, if_pos hne]
  · intro hok
    by_contra hne
    rw [hred, if_pos hne] at hok
    exact Outcome.noConfusion hok

/-- C3 witness: a bundler-returned hash 0xcd differing from the locally
computed hash 0xab makes sendUserOperation escalate the consistency fault. -/
theorem sendUserOperation_hash_mismatch_escalates_witness :
    sendUserOperation (fun _ _ _ => "0xab")
        ⟨.ok ⟨1, "0xE", "0xL"⟩, .ok "0xcd"⟩
        ⟨"0xS", 0, "0x", "0x", 0, 1, 2, 3, 4, "0x", "0x"⟩ =
      .thrown "userOpHash is not equal to userOpHashLocal" :=
  (sendUserOperation_hash_mismatch_escalates (fun _ _ _ => "0xab")
      ⟨.ok ⟨1, "0xE", "0xL"⟩, .ok "0xcd"⟩
      ⟨"0xS", 0, "0x", "0x", 0, 1, 2, 3, 4, "0x", "0x"⟩
      ⟨1, "0xE", "0xL"⟩ "0xcd" rfl rfl).1 (by decide)


/-! ## Transaction batching (fromTransaction) -/

/-- A Transaction as consumed by fromTransaction; value, data and gasLimit
are optional, the numeric fields modelled by their BigInt values. The
source's field named to is rendered toAddress (to is reserved here); the
call shapes below use dest, the parameter name of the on-chain execute. -/
structure Transaction where
  toAddress : String
  value : Option Nat
  data : Option String
  gasLimit : Option Nat
deriving DecidableEq

/-- The three wallet calldata encodings fromTransaction can produce. The ABI
encoder is an external pure collaborator, so callData is modelled by the
selected call shape and its arguments. -/
inductive ExecuteCall where
  | execute (dest : String) (value : String) (data : String)
  | executeBatchNoValue (dest : List String) (data : List String)
  | executeBatchWithValue (dest : List String) (value : List String) (data : List String)
deriving DecidableEq

/-- The UserOperation literal fromTransaction assembles (nonce and the fee
fields are hex strings exactly as in the source; callData is the selected
encoding). -/
structure FromTxUserOp where
  sender : String
  nonce : String
  initCode : String
  callData : ExecuteCall
  callGasLimit : String
  verificationGasLimit : Nat
  preVerificationGas : Nat
  maxFeePerGas : String
  maxPriorityFeePerGas : String
  paymasterAndData : String
  signature : String
deriving DecidableEq

/-- External responses consumed by fromTransaction: the walletDeployed check
and the getNonce read. -/
structure FromTxOracle where
  walletDeployed : Except String Bool
  nonce : Except String String

/-- The gas-limit summing loop: adds the per-transaction gasLimit values,
but resets to zero and breaks at the first transaction without one. -/
def sumGasLimits : List Transaction → Nat → Nat
  | [], acc => acc
  | tx :: rest, acc =>
    match tx.gasLimit with
    | none => 0
    | some g => sumGasLimits rest (acc + g)

/-- The per-transaction value hex: 0x0 when absent, else 0x + hex. -/
def txValueHex (tx : Transaction) : String :=
  match tx.value with
  | none => "0x0"
  | some v => hexString v

/-- The per-transaction data: 0x when absent. -/
def txDataHex (tx : Transaction) : String := tx.data.getD "0x"

/-- The per-transaction loop of fromTransaction: validates each to address
and data byte string (first failure aborts), collects the to/value/data
arrays, and tracks whether any value hex differs from 0x0. -/
def buildCallArrays (validAddress validBytes : String → Bool) :
    List Transaction → Except String (List String × List String × List String × Bool)
  | [] => .ok ([], [], [], false)
  | tx :: rest =>
    if ! validAddress tx.toAddress then .error ("invalid to: " ++ tx.toAddress)
    else
      let v := txValueHex tx
      let hasV : Bool := v ≠ "0x0"
      let d := txDataHex tx
      if ! validBytes d then .error ("invalid data: " ++ d)
      else
        match buildCallArrays validAddress validBytes rest with
        | .error e => .error e
        | .ok (tos, vals, datas, hv) =>
          .ok (tx.toAddress :: tos, v :: vals, d :: datas, hasV || hv)

/-- SoulWallet.fromTransaction: empty-list and from-address validation, the
walletDeployed check, the gas-limit sum rounded up to even, the nonce fetch,
the per-transaction loop, the three-way calldata encoding choice, and the
assembled operation with initCode 0x, zero verification gas fields, hex fee
fields, empty paymasterAndData and empty signature. -/
def fromTransaction (validAddress validBytes : String → Bool) (o : FromTxOracle)
    (maxFeePerGas maxPriorityFeePerGas : Nat) (fromAddr : String)
    (txs : List Transaction) : Except String FromTxUserOp :=
  if txs.length = 0 then .error "txs.length === 0"
  else if ! validAddress fromAddr then .error ("invalid from: " ++ fromAddr)
  else
    match o.walletDeployed with
    | .error e => .error e
    | .ok _ =>
      let cgl0 := sumGasLimits txs 0
      let callGasLimit := if cgl0 % 2 = 1 then cgl0 + 1 else cgl0
      match o.nonce with
      | .error e => .error e
      | .ok nonce =>
        match buildCallArrays validAddress validBytes txs with
        | .error e => .error e
        | .ok (tos, vals, datas, hasValue) =>
          let callData : ExecuteCall :=
            if txs.length > 1 then
              if hasValue then .executeBatchWithValue tos vals datas
              else .executeBatchNoValue tos datas
            else .execute (tos.headD "") (vals.headD "") (datas.headD "")
          .ok { sender := fromAddr, nonce := nonce, initCode := "0x",
                callData := callData,
                callGasLimit := hexString callGasLimit,
                verificationGasLimit := 0, preVerificationGas := 0,
                maxFeePerGas := hexString maxFeePerGas,
                maxPriorityFeePerGas := hexString maxPriorityFeePerGas,
                paymasterAndData := "0x", signature := "0x" }

/-! ## Hex string facts -/

lemma natToHexCore_length (fuel : Nat) : ∀ n acc, n < fuel →
    (natToHexCore fuel n acc).length ≥ acc.length + 1 := by
  induction fuel with
  | zero => intro n acc h; omega
  | succ f ih =>
    intro n acc h
    unfold natToHexCore
    by_cases h16 : n < 16
    · rw [if_pos h16]
      simp
    · rw [if_neg h16]
      have hlt : n / 16 < f := by
        have := Nat.div_lt_self (by omega : 0 < n) (by omega : 1 < 16)
        omega
      have := ih (n / 16) (hexDigitChar (n % 16) :: acc) hlt
      simp at this ⊢
      omega

lemma hexString_eq_0x0_iff (n : Nat) : hexString n = "0x0" ↔ n = 0 := by
  constructor
  · intro h
    by_contra hn
    unfold hexString at h
    rw [show ("0x0" : String) = String.mk ['0', 'x', '0'] from rfl] at h
    have hl : natToHexCore (n + 1) n [] = ['0'] := by
      have := congrArg String.data h
      simpa using this
    by_cases h16 : n < 16
    · unfold natToHexCore at hl
      rw [if_pos h16] at hl
      rw [Nat.mod_eq_of_lt h16] at hl
      have hd : hexDigitChar n = '0' := by simpa using hl
      unfold hexDigitChar at hd
      interval_cases n <;> simp_all
    · have h2 : n ≥ 16 := by omega
      unfold natToHexCore at hl
      rw [if_neg h16] at hl
      have hlt : n / 16 < n := Nat.div_lt_self (by omega) (by omega)
      have := natToHexCore_length n (n / 16) [hexDigitChar (n % 16)] (by omega)
      rw [hl] at this
      simp at this
  · intro h
    subst h
    rfl

lemma txValueHex_eq_0x0_of_zero (tx : Transaction) (h : tx.value.getD 0 = 0) :
    txValueHex tx = "0x0" := by
  unfold txValueHex
  cases hv : tx.value with
  | none => rfl
  | some v =>
    rw [hv] at h
    simp at h
    subst h
    rfl

lemma txValueHex_ne_0x0_of_nonzero (tx : Transaction) (h : tx.value.getD 0 ≠ 0) :
    txValueHex tx ≠ "0x0" := by
  unfold txValueHex
  cases hv : tx.value with
  | none => rw [hv] at h; simp at h
  | some v =>
    rw [hv] at h
    simp at h
    exact fun hc => h ((hexString_eq_0x0_iff v).mp hc)

/-! ## fromTransaction lemmas -/

lemma buildCallArrays_ok (validAddress validBytes : String → Bool) :
    ∀ txs : List Transaction,
    (∀ tx ∈ txs, validAddress tx.toAddress = true ∧ validBytes (txDataHex tx) = true) →
    buildCallArrays validAddress validBytes txs =
      .ok (txs.map fun tx => tx.toAddress, txs.map txValueHex, txs.map txDataHex,
           txs.any fun tx => decide (txValueHex tx ≠ "0x0")) := by
  intro txs
  induction txs with
  | nil => intro _; rfl
  | cons tx rest ih =>
    intro hval
    obtain ⟨hto, hdata⟩ := hval tx (by simp)
    unfold buildCallArrays
    rw [if_neg (by simp [hto]), if_neg (by simp [hdata]),
      ih (fun t ht => hval t (by simp [ht]))]
    simp

lemma fromTransaction_run (validAddress validBytes : String → Bool)
    (o : FromTxOracle) (mf mp : Nat) (fromAddr : String) (txs : List Transaction)
    (nonce : String) (dep : Bool)
    (hne : ¬ txs.length = 0)
    (hfrom : validAddress fromAddr = true)
    (hdep : o.walletDeployed = .ok dep)
    (hnonce : o.nonce = .ok nonce)
    (hval : ∀ tx ∈ txs, validAddress tx.toAddress = true ∧ validBytes (txDataHex tx) = true) :
    fromTransaction validAddress validBytes o mf mp fromAddr txs = .ok
      { sender := fromAddr, nonce := nonce, initCode := "0x",
        callData :=
          if txs.length > 1 then
            if txs.any (fun tx => decide (txValueHex tx ≠ "0x0")) then
              .executeBatchWithValue (txs.map fun tx => tx.toAddress) (txs.map txValueHex)
                (txs.map txDataHex)
            else
              .executeBatchNoValue (txs.map fun tx => tx.toAddress) (txs.map txDataHex)
          else
            .execute ((txs.map fun tx => tx.toAddress).headD "") ((txs.map txValueHex).headD "")
              ((txs.map txDataHex).headD ""),
        callGasLimit := hexString
          (if sumGasLimits txs 0 % 2 = 1 then sumGasLimits txs 0 + 1
           else sumGasLimits txs 0),
        verificationGasLimit := 0, preVerificationGas := 0,
        maxFeePerGas := hexString mf, maxPriorityFeePerGas := hexString mp,
        paymasterAndData := "0x", signature := "0x" } := by
  unfold fromTransaction
  rw [if_neg hne, if_neg (by simp [hfrom]), hdep, hnonce,
    buildCallArrays_ok validAddress validBytes txs hval]


/-- C8. fromTransaction rejects an empty transaction list, and otherwise
selects the calldata encoding from the batch shape: a single transaction
yields the direct execute encoding with that transaction's to, value and
data; several transactions whose values are all zero or absent yield the
no-value batch encoding; several transactions with at least one nonzero
value yield the with-value batch encoding. -/
theorem fromTransaction_callData_encoding (validAddress validBytes : String → Bool)
    (o : FromTxOracle) (mf mp : Nat) (fromAddr : String) (txs : List Transaction)
    (nonce : String) (dep : Bool)
    (hfrom : validAddress fromAddr = true)
    (hdep : o.walletDeployed = .ok dep)
    (hnonce : o.nonce = .ok nonce)
    (hval : ∀ tx ∈ txs, validAddress tx.toAddress = true ∧
      validBytes (txDataHex tx) = true) :
    fromTransaction validAddress validBytes o mf mp fromAddr [] =
      .error "txs.length === 0"
    ∧ (∀ t, txs = [t] →
        ∃ op, fromTransaction validAddress validBytes o mf mp fromAddr txs = .ok op
        ∧ op.callData = .execute t.toAddress (txValueHex t) (txDataHex t))
    ∧ (txs.length > 1 → (∀ tx ∈ txs, tx.value.getD 0 = 0) →
        ∃ op, fromTransaction validAddress validBytes o mf mp fromAddr txs = .ok op
        ∧ op.callData = .executeBatchNoValue (txs.map fun tx => tx.toAddress)
            (txs.map txDataHex))
    ∧ (txs.length > 1 → (∃ tx ∈ txs, tx.value.getD 0 ≠ 0) →
        ∃ op, fromTransaction validAddress validBytes o mf mp fromAddr txs = .ok op
        ∧ op.callData = .executeBatchWithValue (txs.map fun tx => tx.toAddress)
            (txs.map txValueHex) (txs.map txDataHex)) := by
  refine ⟨rfl, ?_, ?_, ?_⟩
  · intro t ht
    subst ht
    refine ⟨_, fromTransaction_run validAddress validBytes o mf mp fromAddr [t]
      nonce dep (by simp) hfrom hdep hnonce hval, ?_⟩
    simp
  · intro hlen hzero
    have hany : (txs.any fun tx => decide (txValueHex tx ≠ "0x0")) = false := by
      rw [List.any_eq_false]
      intro tx htx
      simp [txValueHex_eq_0x0_of_zero tx (hzero tx htx)]
    refine ⟨_, fromTransaction_run validAddress validBytes o mf mp fromAddr txs
      nonce dep (by omega) hfrom hdep hnonce hval, ?_⟩
    simp only [if_pos hlen, hany]
    rfl
  · intro hlen hex
    have hany : (txs.any fun tx => decide (txValueHex tx ≠ "0x0")) = true := by
      rw [List.any_eq_true]
      obtain ⟨tx, htx, hv⟩ := hex
      exact ⟨tx, htx, by simp [txValueHex_ne_0x0_of_nonzero tx hv]⟩
    refine ⟨_, fromTransaction_run validAddress validBytes o mf mp fromAddr txs
      nonce dep (by omega) hfrom hdep hnonce hval, ?_⟩
    simp only [if_pos hlen, hany]
    rfl

/-- C8 witness: with concrete transactions, a singleton yields the direct
execute encoding, a zero-value pair yields the no-value batch encoding, and
a pair with one nonzero value yields the with-value batch encoding, while
the empty list is rejected. -/
theorem fromTransaction_callData_encoding_witness :
    (fromTransaction (fun _ => true) (fun _ => true) ⟨.ok true, .ok "0x1"⟩ 1 1 "0xF" [] =
      .error "txs.length === 0"
    ∧ (∃ op, fromTransaction (fun _ => true) (fun _ => true) ⟨.ok true, .ok "0x1"⟩ 1 1 "0xF"
          [⟨"0xA", none, none, some 3⟩] = .ok op
        ∧ op.callData = .execute "0xA" "0x0" "0x"))
    ∧ (∃ op, fromTransaction (fun _ => true) (fun _ => true) ⟨.ok true, .ok "0x1"⟩ 1 1 "0xF"
          [⟨"0xA", none, none, some 3⟩, ⟨"0xB", some 0, some "0xdd", some 4⟩] = .ok op
        ∧ op.callData = .executeBatchNoValue ["0xA", "0xB"] ["0x", "0xdd"])
    ∧ (∃ op, fromTransaction (fun _ => true) (fun _ => true) ⟨.ok true, .ok "0x1"⟩ 1 1 "0xF"
          [⟨"0xA", none, none, some 3⟩, ⟨"0xC", some 5, none, none⟩] = .ok op
        ∧ op.callData = .executeBatchWithValue ["0xA", "0xC"] ["0x0", "0x5"] ["0x", "0x"]) := by
  refine ⟨⟨?_, ?_⟩, ?_, ?_⟩
  · exact (fromTransaction_callData_encoding (fun _ => true) (fun _ => true)
      ⟨.ok true, .ok "0x1"⟩ 1 1 "0xF" [] "0x1" true rfl rfl rfl (by simp)).1
  · exact (fromTransaction_callData_encoding (fun _ => true) (fun _ => true)
      ⟨.ok true, .ok "0x1"⟩ 1 1 "0xF" [⟨"0xA", none, none, some 3⟩] "0x1" true
      rfl rfl rfl (by simp)).2.1 ⟨"0xA", none, none, some 3⟩ rfl
  · exact (fromTransaction_callData_encoding (fun _ => true) (fun _ => true)
      ⟨.ok true, .ok "0x1"⟩ 1 1 "0xF"
      [⟨"0xA", none, none, some 3⟩, ⟨"0xB", some 0, some "0xdd", some 4⟩] "0x1" true
      rfl rfl rfl (by simp)).2.2.1 (by simp) (by decide)
  · exact (fromTransaction_callData_encoding (fun _ => true) (fun _ => true)
      ⟨.ok true, .ok "0x1"⟩ 1 1 "0xF"
      [⟨"0xA", none, none, some 3⟩, ⟨"0xC", some 5, none, none⟩] "0x1" true
      rfl rfl rfl (by simp)).2.2.2 (by simp)
      ⟨⟨"0xC", some 5, none, none⟩, by simp, by simp⟩

lemma sumGasLimits_all_some : ∀ (txs : List Transaction),
    (∀ tx ∈ txs, tx.gasLimit.isSome = true) → ∀ acc,
    sumGasLimits txs acc = acc + (txs.map fun tx => tx.gasLimit.getD 0).sum := by
  intro txs
  induction txs with
  | nil => intro _ acc; simp [sumGasLimits]
  | cons tx rest ih =>
    intro h acc
    have hhd := h tx (by simp)
    unfold sumGasLimits
    cases hg : tx.gasLimit with
    | none => rw [hg] at hhd; simp at hhd
    | some g =>
      refine Eq.trans (ih (fun t ht => h t (by simp [ht])) (acc + g)) ?_
      simp only [List.map_cons, List.sum_cons, hg, Option.getD_some]
      omega

lemma sumGasLimits_with_none : ∀ (txs : List Transaction),
    (∃ tx ∈ txs, tx.gasLimit = none) → ∀ acc, sumGasLimits txs acc = 0 := by
  intro txs
  induction txs with
  | nil => intro h; simp at h
  | cons tx rest ih =>
    intro h acc
    unfold sumGasLimits
    cases hg : tx.gasLimit with
    | none => rfl
    | some g =>
      obtain ⟨t, ht, htn⟩ := h
      rcases List.mem_cons.mp ht with heq | hmem
      · subst heq; rw [hg] at htn; cases htn
      · exact ih ⟨t, hmem, htn⟩ (acc + g)

/-- C9. On the success path of fromTransaction, when every transaction
supplies a gasLimit the operation's callGasLimit is their sum rounded up to
the nearest even number (as a hex string), and when at least one transaction
omits its gasLimit the callGasLimit is zero. -/
theorem fromTransaction_callGasLimit_policy (validAddress validBytes : String → Bool)
    (o : FromTxOracle) (mf mp : Nat) (fromAddr : String) (txs : List Transaction)
    (nonce : String) (dep : Bool)
    (hne : ¬ txs.length = 0)
    (hfrom : validAddress fromAddr = true)
    (hdep : o.walletDeployed = .ok dep)
    (hnonce : o.nonce = .ok nonce)
    (hval : ∀ tx ∈ txs, validAddress tx.toAddress = true ∧
      validBytes (txDataHex tx) = true) :
    ((∀ tx ∈ txs, tx.gasLimit.isSome = true) →
      ∃ op, fromTransaction validAddress validBytes o mf mp fromAddr txs = .ok op
      ∧ op.callGasLimit = hexString
          (if (txs.map fun tx => tx.gasLimit.getD 0).sum % 2 = 1 then
            (txs.map fun tx => tx.gasLimit.getD 0).sum + 1
          else (txs.map fun tx => tx.gasLimit.getD 0).sum))
    ∧ ((∃ tx ∈ txs, tx.gasLimit = none) →
      ∃ op, fromTransaction validAddress validBytes o mf mp fromAddr txs = .ok op
      ∧ op.callGasLimit = hexString 0) := by
  constructor
  · intro hall
    refine ⟨_, fromTransaction_run validAddress validBytes o mf mp fromAddr txs
      nonce dep hne hfrom hdep hnonce hval, ?_⟩
    have hsum := sumGasLimits_all_some txs hall 0
    simp only [Nat.zero_add] at hsum
    simp only [hsum]
  · intro hnone
    refine ⟨_, fromTransaction_run validAddress validBytes o mf mp fromAddr txs
      nonce dep hne hfrom hdep hnonce hval, ?_⟩
    have hsum := sumGasLimits_with_none txs hnone 0
    simp only [hsum]
    rfl

/-- C9 witness: two transactions with gasLimits 3 and 4 sum to 7 and give
callGasLimit 0x8, and a pair where one omits the gasLimit gives 0x0. -/
theorem fromTransaction_callGasLimit_policy_witness :
    (∃ op, fromTransaction (fun _ => true) (fun _ => true) ⟨.ok true, .ok "0x1"⟩ 1 1 "0xF"
        [⟨"0xA", none, none, some 3⟩, ⟨"0xB", some 0, some "0xdd", some 4⟩] = .ok op
      ∧ op.callGasLimit = "0x8")
    ∧ (∃ op, fromTransaction (fun _ => true) (fun _ => true) ⟨.ok true, .ok "0x1"⟩ 1 1 "0xF"
        [⟨"0xA", none, none, some 3⟩, ⟨"0xC", some 5, none, none⟩] = .ok op
      ∧ op.callGasLimit = "0x0") := by
  constructor
  · exact (fromTransaction_callGasLimit_policy (fun _ => true) (fun _ => true)
      ⟨.ok true, .ok "0x1"⟩ 1 1 "0xF"
      [⟨"0xA", none, none, some 3⟩, ⟨"0xB", some 0, some "0xdd", some 4⟩] "0x1" true
      (by simp) rfl rfl rfl (by simp)).1 (by simp)
  · exact (fromTransaction_callGasLimit_policy (fun _ => true) (fun _ => true)
      ⟨.ok true, .ok "0x1"⟩ 1 1 "0xF"
      [⟨"0xA", none, none, some 3⟩, ⟨"0xC", some 5, none, none⟩] "0x1" true
      (by simp) rfl rfl rfl (by simp)).2
      ⟨⟨"0xC", some 5, none, none⟩, by simp, rfl⟩


/-! ## Wallet deployment check (walletDeployed) -/

/-- External responses consumed by walletDeployed: the getOnChainConfig
result and the provider getCode read (which can fail: the try/catch turns a
thrown provider error into an Err). -/
structure DeployedOracle where
  config : Except String OnChainConfig
  getCode : Except String String

/-- StorageCache.getInstance().get for the boolean walletDeployed keys. -/
def deployedCacheGet (key : String) : List (String × Bool) → Option Bool
  | [] => none
  | (k, v) :: rest => if k = key then some v else deployedCacheGet key rest

/-- SoulWallet.walletDeployed: config fetch; cache key walletAddress-chainId;
if the cached value (default false) is true, return true without a chain
read; otherwise read getCode, treat non-0x code as deployed, and write the
cache entry only when deployed. The third result component records whether
the getCode chain read was performed. -/
def walletDeployed (o : DeployedOracle) (walletAddress : String)
    (cache : List (String × Bool)) :
    Except String Bool × List (String × Bool) × Bool :=
  match o.config with
  | .error e => (.error e, cache, false)
  | .ok cfg =>
    let key := walletAddress ++ "-" ++ Nat.repr cfg.chainId
    if (deployedCacheGet key cache).getD false then
      (.ok true, cache, false)
    else
      match o.getCode with
      | .error e => (.error e, cache, true)
      | .ok code =>
        let deployed : Bool := code ≠ "0x"
        if deployed then (.ok deployed, (key, true) :: cache, true)
        else (.ok deployed, cache, true)

/-- C10. The walletDeployed cache records only positive results: every call
leaves the cache unchanged or extends it with one entry whose value is true;
with no positive cache entry an empty-code (undeployed) answer performs the
getCode read, returns false and writes nothing, so the next call re-queries;
any cache miss performs the getCode read; a cached true answers true with no
chain read; and once non-empty code has been observed the entry
(walletAddress-chainId, true) is in the cache, so every subsequent call
returns true from the cache without a chain read. -/
theorem walletDeployed_cache_only_positive (o : DeployedOracle) (addr : String)
    (cache : List (String × Bool)) (cfg : OnChainConfig)
    (hcfg : o.config = .ok cfg) :
    ((walletDeployed o addr cache).2.1 = cache ∨
      (walletDeployed o addr cache).2.1 =
        (addr ++ "-" ++ Nat.repr cfg.chainId, true) :: cache)
    ∧ ((deployedCacheGet (addr ++ "-" ++ Nat.repr cfg.chainId) cache).getD false = false →
        o.getCode = .ok "0x" →
        walletDeployed o addr cache = (.ok false, cache, true))
    ∧ ((deployedCacheGet (addr ++ "-" ++ Nat.repr cfg.chainId) cache).getD false = false →
        (walletDeployed o addr cache).2.2 = true)
    ∧ ((deployedCacheGet (addr ++ "-" ++ Nat.repr cfg.chainId) cache).getD false = true →
        walletDeployed o addr cache = (.ok true, cache, false))
    ∧ (∀ code, o.getCode = .ok code → ¬ code = "0x" →
        (deployedCacheGet (addr ++ "-" ++ Nat.repr cfg.chainId) cache).getD false = false →
        walletDeployed o addr cache =
          (.ok true, (addr ++ "-" ++ Nat.repr cfg.chainId, true) :: cache, true)
        ∧ walletDeployed o addr ((addr ++ "-" ++ Nat.repr cfg.chainId, true) :: cache) =
            (.ok true, (addr ++ "-" ++ Nat.repr cfg.chainId, true) :: cache, false)) := by
  have hkeyhit : ∀ c : List (String × Bool),
      (deployedCacheGet (addr ++ "-" ++ Nat.repr cfg.chainId) c).getD false = true →
      walletDeployed o addr c = (.ok true, c, false) := by
    intro c hc
    unfold walletDeployed
    simp only [hcfg]
    rw [if_pos hc]
  refine ⟨?_, ?_, ?_, hkeyhit cache, ?_⟩
  · unfold walletDeployed
    simp only [hcfg]
    by_cases hhit : (deployedCacheGet (addr ++ "-" ++ Nat.repr cfg.chainId) cache).getD
        false = true
    · rw [if_pos hhit]
      exact Or.inl rfl
    · rw [if_neg hhit]
      cases hgc : o.getCode with
      | error e => exact Or.inl rfl
      | ok code =>
        dsimp only
        cases hdep : decide (code ≠ "0x") with
        | false => exact Or.inl rfl
        | true => exact Or.inr rfl
  · intro hmiss hgc
    unfold walletDeployed
    simp only [hcfg]
    rw [if_neg (by rw [hmiss]; simp), hgc]
    rfl
  · intro hmiss
    unfold walletDeployed
    simp only [hcfg]
    rw [if_neg (by rw [hmiss]; simp)]
    cases hgc : o.getCode with
    | error e => rfl
    | ok code =>
      dsimp only
      cases hdep : decide (code ≠ "0x") with
      | false => rfl
      | true => rfl
  · intro code hgc hne hmiss
    have hdep : decide (code ≠ "0x") = true := by simp [hne]
    constructor
    · unfold walletDeployed
      simp only [hcfg]
      rw [if_neg (by rw [hmiss]; simp)]
      simp only [hgc]
      rw [if_pos hdep, hdep]
    · refine hkeyhit _ ?_
      unfold deployedCacheGet
      rw [if_pos rfl]
      rfl

/-- C10 witness: with empty code the cache stays empty and getCode is
queried; after non-empty code is observed the positive entry is cached and
the follow-up call answers true without a chain read. -/
theorem walletDeployed_cache_only_positive_witness :
    walletDeployed ⟨.ok ⟨1, "0xE", "0xL"⟩, .ok "0x"⟩ "0xW" [] = (.ok false, [], true)
    ∧ (walletDeployed ⟨.ok ⟨1, "0xE", "0xL"⟩, .ok "0xcode"⟩ "0xW" [] =
        (.ok true, [("0xW-1", true)], true)
      ∧ walletDeployed ⟨.ok ⟨1, "0xE", "0xL"⟩, .ok "0xcode"⟩ "0xW" [("0xW-1", true)] =
        (.ok true, [("0xW-1", true)], false)) := by
  constructor
  · exact (walletDeployed_cache_only_positive ⟨.ok ⟨1, "0xE", "0xL"⟩, .ok "0x"⟩
      "0xW" [] ⟨1, "0xE", "0xL"⟩ rfl).2.1 rfl rfl
  · exact (walletDeployed_cache_only_positive ⟨.ok ⟨1, "0xE", "0xL"⟩, .ok "0xcode"⟩
      "0xW" [] ⟨1, "0xE", "0xL"⟩ rfl).2.2.2.2 "0xcode" rfl (by decide) rfl


end SoulWalletLib
